import Mathlib

/-!
Heimdall application hooks (`app/app.go`)

A shallow embedding of the block-lifecycle hooks of `HeimdallApp` and of the
helper functions next to them (`getSigs`, `GetVoteBytes`, `getExtraData`),
followed by the properties established about them.

Conventions of the embedding:

* a Go byte slice is a `List` of bytes; `nil` and the empty slice are both `[]`;
* `uint64` fields are natural numbers, `int64` fields are integers (no
  arithmetic is performed on them by the embedded code);
* an `sdk.Context` carries the multistore it gives access to; a hook that
  writes through its context returns the store contents after the call;
* a Go call that can panic returns `Except GoPanic _`;
* functions of packages that are not part of `app.go` (`rlp.EncodeToBytes`,
  `Vote.SignBytes`, the keepers' methods) are parameters.
-/

namespace Heimdall

/-! ## Data model -/

/-- One octet. -/
abbrev Byte := Fin 256

/-- A Go byte slice. -/
abbrev Bytes := List Byte

/-- The fields of `tmtypes.Vote` (Tendermint); the application reads
`Signature` and hands the whole vote to `SignBytes`. `Timestamp` is the vote's
`time.Time`, kept in Unix seconds. -/
structure Vote where
  ValidatorAddress : Bytes
  ValidatorIndex : Int
  Height : Int
  Round : Int
  Timestamp : Int
  VoteType : Nat
  BlockID : Bytes
  Signature : Bytes
deriving DecidableEq, Repr

/-- Go panics the embedded code can end in: the run-time panic of an index
out of range, and a `panic(err)` raised by a called library function. -/
inductive GoPanic where
  | indexOutOfRange (index length : Nat)
  | raised (err : String)
deriving DecidableEq, Repr

/-- Modelled from the spec: the type `checkpoint.CheckpointBlockHeader` is
declared outside `app.go`; the specification gives the checkpoint record as
proposer address, start block, end block (both uint64) and root hash, the four
fields `getExtraData` reads. -/
structure CheckpointBlockHeader where
  Proposer : Bytes
  StartBlock : Nat
  EndBlock : Nat
  RootHash : Bytes
deriving DecidableEq, Repr

/-- Modelled from the spec: the message type built by
`checkpoint.NewMsgCheckpointBlock` is declared outside `app.go`; the
specification gives the message as proposer, startBlock, endBlock, rootHash. -/
structure MsgCheckpoint where
  Proposer : Bytes
  StartBlock : Nat
  EndBlock : Nat
  RootHash : Bytes
deriving DecidableEq, Repr

/-- Modelled from the spec: the constructor `checkpoint.NewMsgCheckpointBlock`
is declared outside `app.go`; it builds the message from its four arguments. -/
def NewMsgCheckpointBlock (proposer : Bytes) (startBlock endBlock : Nat)
    (roothash : Bytes) : MsgCheckpoint :=
  { Proposer := proposer, StartBlock := startBlock, EndBlock := endBlock,
    RootHash := roothash }

/-- Modelled from the spec: the transaction envelope `hmtypes.BaseTx` is
declared outside `app.go`; it wraps one message and carries no sequence or
signer metadata. -/
structure BaseTx where
  Msg : MsgCheckpoint
deriving DecidableEq, Repr

/-- Modelled from the spec: the constructor `hmtypes.NewBaseTx` is declared
outside `app.go`; it wraps the message in the envelope. -/
def NewBaseTx (msg : MsgCheckpoint) : BaseTx :=
  { Msg := msg }

/-- The error value of a failed `rlp.EncodeToBytes`. -/
structure RlpError where
  text : String
deriving DecidableEq, Repr

/-- The serializer `rlp.EncodeToBytes` (go-ethereum), a parameter of the
embedding: the Go pair of the bytes and the error, `none` standing for a nil
error. -/
abbrev Serializer := BaseTx → Bytes × Option RlpError

/-- Modelled from the spec: the checkpoint keeper's store (its code is outside
`app.go`) is a map from block height to checkpoint record together with the
ACK count, `none` before the count was ever written. -/
structure CheckpointStore where
  records : List (Int × CheckpointBlockHeader)
  ackCount : Option Nat
deriving DecidableEq, Repr

/-- The record stored at a height, if any (first entry with that key). -/
def CheckpointStore.get (store : CheckpointStore) (height : Int) :
    Option CheckpointBlockHeader :=
  (store.records.find? (fun entry => entry.1 == height)).map Prod.snd

/-- The type `abci.ValidatorUpdate`. -/
structure ValidatorUpdate where
  PubKey : Bytes
  Power : Int
deriving DecidableEq, Repr

/-- Contents of the store mounted under `keyStaker`. -/
structure StakerStore where
  validators : List ValidatorUpdate
deriving DecidableEq, Repr

/-- The stores mounted by `NewHeimdallApp`: `keyMain`, `keyCheckpoint` and
`keyStaker`. -/
structure MultiStore where
  main : List (Bytes × Bytes)
  checkpoint : CheckpointStore
  staker : StakerStore
deriving DecidableEq, Repr

/-- The store with the ACK count written as `n`, everything else kept. -/
def MultiStore.setACKCount (ms : MultiStore) (n : Nat) : MultiStore :=
  { ms with checkpoint := { ms.checkpoint with ackCount := some n } }

/-- The block header fields the application code mentions: `NumTxs` is the
checkpoint marker and `Votes` the vote set of the block (carried JSON-encoded
in the header, kept decoded here). -/
structure Header where
  ChainID : String
  Height : Int
  NumTxs : Int
  Votes : List Vote
deriving DecidableEq, Repr

/-- The part of `sdk.Context` the application can observe: the multistore it
gives access to, the block header, the chain ID and the block height. -/
structure Context where
  ms : MultiStore
  BlockHeader : Header
  ChainID : String
  BlockHeight : Int
deriving DecidableEq, Repr

/-- Modelled from the spec: the root chain view read by `helper.GetLastBlock`
(the helper package is outside `app.go`), the specification's
ExternalChainState. -/
structure ExternalChainState where
  lastConfirmedBlock : Nat
deriving DecidableEq, Repr

/-- Severity of a log line. -/
inductive LogLevel where
  | debug
  | info
  | error
deriving DecidableEq, Repr

/-- A value logged next to a key. -/
inductive LogValue where
  | num (n : Nat)
  | bytes (b : Bytes)
  | err (e : RlpError)
deriving DecidableEq, Repr

/-- One call of the package logger. -/
structure LogLine where
  level : LogLevel
  msg : String
  keyvals : List (String × LogValue)
deriving DecidableEq, Repr

/-- One call of `helper.SendCheckpoint(voteSignBytes, sigs, extraData)`. -/
structure Submission where
  voteSignBytes : Bytes
  sigs : Bytes
  extraData : Bytes
deriving DecidableEq, Repr

/-- The type `abci.RequestBeginBlock`. -/
structure RequestBeginBlock where
  Hash : Bytes
  Header : Header
deriving DecidableEq, Repr

/-- The type `abci.ResponseBeginBlock`; the zero value has no tags. -/
structure ResponseBeginBlock where
  Tags : List (Bytes × Bytes) := []
deriving DecidableEq, Repr

/-- The type `abci.RequestEndBlock`. -/
structure RequestEndBlock where
  Height : Int
deriving DecidableEq, Repr

/-- The type `abci.ResponseEndBlock`; the zero value has no updates and no
tags. -/
structure ResponseEndBlock where
  ValidatorUpdates : List ValidatorUpdate := []
  Tags : List (Bytes × Bytes) := []
deriving DecidableEq, Repr

/-- The type `abci.RequestInitChain`. -/
structure RequestInitChain where
  ChainId : String
  Validators : List ValidatorUpdate
  AppStateBytes : Bytes
deriving DecidableEq, Repr

/-- The type `abci.ResponseInitChain`; the zero value has no validators. -/
structure ResponseInitChain where
  Validators : List ValidatorUpdate := []
deriving DecidableEq, Repr

/-- The checkpoint keeper as `app.go` uses it. Its method `InitACKCount`
writes through the context; the embedding takes it as a parameter returning
the store contents after the call. -/
structure CheckpointKeeper where
  InitACKCount : Context → MultiStore

/-- Modelled from the spec: `checkpoint.Keeper.InitACKCount` is declared
outside `app.go`; the specification (4.1) says it sets ACKCount to 0 exactly
once and is a silent no-op if the count is already initialized. It touches
nothing but the count. -/
def specKeeper : CheckpointKeeper :=
  { InitACKCount := fun ctx =>
      match ctx.ms.checkpoint.ackCount with
      | none => ctx.ms.setACKCount 0
      | some _ => ctx.ms }

/-- The staking keeper as `app.go` mentions it: `EndBlocker` stands for
`staking.EndBlocker(ctx, keeper)`, the producer of the pending validator-set
updates of a block, taken as a parameter. -/
structure StakingKeeper where
  EndBlocker : Context → List ValidatorUpdate

/-- The keepers of `HeimdallApp`. -/
structure HeimdallApp where
  checkpointKeeper : CheckpointKeeper
  stakerKeeper : StakingKeeper

/-- What a lifecycle hook leaves behind: the store contents after the call,
the `helper.SendCheckpoint` calls and log lines it made, and its response. -/
structure HookResult (ρ : Type) where
  ms : MultiStore
  sent : List Submission
  logs : List LogLine
  response : ρ

/-- What a `getExtraData` call leaves behind: its log lines and the byte
slice it returns (the Go signature has no error result). -/
structure ExtraData where
  logs : List LogLine
  ret : Bytes
deriving DecidableEq, Repr

/-! ## Lifecycle hooks -/

/-- Source `HeimdallApp.BeginBlocker` (app.go 88-90): ignores both arguments
and returns the zero response. -/
def BeginBlocker (_app : HeimdallApp) (ctx : Context) (_req : RequestBeginBlock) :
    HookResult ResponseBeginBlock :=
  { ms := ctx.ms, sent := [], logs := [], response := {} }

/-- Source `HeimdallApp.EndBlocker` (app.go 92-137): `validators` is declared
and never assigned (the block that reads votes, validates the checkpoint and
calls `helper.SendCheckpoint` and `staking.EndBlocker` is commented out), and
the response carries it. -/
def EndBlocker (_app : HeimdallApp) (ctx : Context) (_x : RequestEndBlock) :
    HookResult ResponseEndBlock :=
  let validators : List ValidatorUpdate := []
  { ms := ctx.ms, sent := [], logs := [],
    response := { ValidatorUpdates := validators } }

/-- Source `HeimdallApp.initChainer` (app.go 169-174): calls the checkpoint
keeper's `InitACKCount` with the context and returns the zero response. -/
def initChainer (app : HeimdallApp) (ctx : Context) (_req : RequestInitChain) :
    HookResult ResponseInitChain :=
  let ms := app.checkpointKeeper.InitACKCount ctx
  { ms := ms, sent := [], logs := [], response := {} }

/-- The context of the next call on the same chain: the same observables over
the store contents a hook left behind. -/
def Context.withStore (ctx : Context) (ms : MultiStore) : Context :=
  { ctx with ms := ms }

/-! ## Vote aggregation -/


/-- Source `getSigs` (app.go 139-146): starting from the nil slice, every vote
of the range loop appends its signature to the accumulator. -/
def getSigs (votes : List Vote) : Bytes :=
  votes.foldl (fun sigs vote => sigs ++ vote.Signature) []

/-- The aggregate in the words of the specification: the ordered
concatenation of all vote signatures, in vote order. -/
def aggregateSpec : List Vote → Bytes
  | [] => []
  | vote :: rest => vote.Signature ++ aggregateSpec rest


/-! ## Vote sign bytes -/

/-- The method `Vote.SignBytes(chainID)` (Tendermint), a parameter of the
embedding: it returns the canonical bytes of the vote, or panics with the
error when marshalling the vote fails. -/
abbrev VoteSigner := Vote → String → Except GoPanic Bytes

/-- Source `GetVoteBytes` (app.go 148-151): indexes the vote slice at 0, which
panics on an empty slice, and returns what that vote's `SignBytes` returns for
the chain ID of the context; a panic inside `SignBytes` is not recovered. -/
def GetVoteBytes (SignBytes : VoteSigner) (votes : List Vote)
    (ctx : Context) : Except GoPanic Bytes :=
  match votes[0]? with
  | some vote => SignBytes vote ctx.ChainID
  | none => .error (.indexOutOfRange 0 votes.length)

/-! ## Extra data -/

/-- Source `getExtraData` (app.go 153-167): logs the record, builds the
message from the record's four fields, wraps it in the base transaction and
serializes it; a serialization error is logged and the byte slice that came
with it is returned all the same. -/
def getExtraData (EncodeToBytes : Serializer) (_checkpoint : CheckpointBlockHeader)
    (_ctx : Context) : ExtraData :=
  let created : LogLine :=
    { level := .debug, msg := "Creating extra data",
      keyvals := [("startBlock", .num _checkpoint.StartBlock),
                  ("endBlock", .num _checkpoint.EndBlock),
                  ("roothash", .bytes _checkpoint.RootHash)] }
  let msg := NewMsgCheckpointBlock _checkpoint.Proposer _checkpoint.StartBlock
    _checkpoint.EndBlock _checkpoint.RootHash
  let tx := NewBaseTx msg
  let (txBytes, err) := EncodeToBytes tx
  match err with
  | some e =>
    { logs := [created, { level := .error, msg := "Error decoding transaction data",
                          keyvals := [("error", .err e)] }],
      ret := txBytes }
  | none => { logs := [created], ret := txBytes }

/-- The outcome the specification asks of the encoder: the bytes on success,
an explicit failure when serialization fails. -/
def encodeSpec (EncodeToBytes : Serializer) (record : CheckpointBlockHeader) :
    Except RlpError Bytes :=
  match EncodeToBytes (NewBaseTx (NewMsgCheckpointBlock record.Proposer
      record.StartBlock record.EndBlock record.RootHash)) with
  | (_, some e) => .error e
  | (bytes, none) => .ok bytes

/-! ## Sample inputs

Concrete values at which the properties below are instantiated. -/

/-- A vote with a two-byte signature. -/
def voteA : Vote :=
  { ValidatorAddress := [1], ValidatorIndex := 0, Height := 7, Round := 0,
    Timestamp := 1540000000, VoteType := 2, BlockID := [9], Signature := [10, 11] }

/-- A vote with a three-byte signature. -/
def voteB : Vote :=
  { ValidatorAddress := [2], ValidatorIndex := 1, Height := 7, Round := 0,
    Timestamp := 1540000001, VoteType := 2, BlockID := [9], Signature := [20, 21, 22] }

/-- A vote stamped after the year 9999, beyond what the marshalling of a
time accepts. -/
def voteOutOfRange : Vote :=
  { ValidatorAddress := [3], ValidatorIndex := 2, Height := 7, Round := 0,
    Timestamp := 253402300800, VoteType := 2, BlockID := [9], Signature := [30] }

/-- The record of scenario 1: blocks 100 to 200. -/
def recordA : CheckpointBlockHeader :=
  { Proposer := [0xA], StartBlock := 100, EndBlock := 200, RootHash := [0x48] }

/-- The record of scenario 2: start block 150. -/
def recordB : CheckpointBlockHeader :=
  { Proposer := [0xA], StartBlock := 150, EndBlock := 200, RootHash := [0x48] }

/-- Store contents with one checkpoint record at height 7. -/
def sampleStore (record : CheckpointBlockHeader) (ack : Option Nat) : MultiStore :=
  { main := [], checkpoint := { records := [(7, record)], ackCount := ack },
    staker := { validators := [] } }

/-- A context at height 7 whose block carries the checkpoint marker. -/
def sampleCtx (record : CheckpointBlockHeader) (votes : List Vote) : Context :=
  { ms := sampleStore record (some 0),
    BlockHeader := { ChainID := "heimdall", Height := 7, NumTxs := 1, Votes := votes },
    ChainID := "heimdall", BlockHeight := 7 }

/-- Scenario 1: record 100 to 200 and two votes. -/
def ctxValid : Context := sampleCtx recordA [voteA, voteB]

/-- Scenario 2: record starting at 150 and two votes. -/
def ctxMismatch : Context := sampleCtx recordB [voteA, voteB]

/-- A context on another chain, at another height, over other store contents. -/
def ctxOther : Context :=
  { ms := { main := [([1], [2])], checkpoint := { records := [], ackCount := some 3 },
            staker := { validators := [{ PubKey := [5], Power := 1 }] } },
    BlockHeader := { ChainID := "other", Height := 42, NumTxs := 0, Votes := [] },
    ChainID := "other", BlockHeight := 42 }

/-- A context at genesis: one record stored, ACK count not yet written. -/
def ctxGenesis : Context :=
  { ms := sampleStore recordA none,
    BlockHeader := { ChainID := "heimdall", Height := 0, NumTxs := 0, Votes := [] },
    ChainID := "heimdall", BlockHeight := 0 }

/-- The root chain has confirmed up to block 100. -/
def externalAt100 : ExternalChainState := { lastConfirmedBlock := 100 }

/-- An application whose staking collaborator has one update pending. -/
def sampleApp : HeimdallApp :=
  { checkpointKeeper := specKeeper,
    stakerKeeper := { EndBlocker := fun _ => [{ PubKey := [1], Power := 10 }] } }

/-- The request of the block at height 7. -/
def sampleEndBlock : RequestEndBlock := { Height := 7 }

/-- A genesis request. -/
def sampleInitChain : RequestInitChain :=
  { ChainId := "heimdall", Validators := [], AppStateBytes := [] }

/-- A serializer that fails on every transaction, returning the nil slice
with the error. -/
def failingSerializer : Serializer :=
  fun _ => ([], some { text := "rlp: type not serializable" })

/-- A serializer that succeeds on every transaction: the fields in order, the
block numbers reduced to one byte. -/
def sampleSerializer : Serializer :=
  fun tx => (tx.Msg.Proposer ++ [Fin.ofNat tx.Msg.StartBlock, Fin.ofNat tx.Msg.EndBlock]
    ++ tx.Msg.RootHash, none)

/-- Sample sign bytes: the length of the chain ID, then the validator
address; a vote stamped outside the years 1 to 9999 fails to marshal and the
call panics with the error, as the library's `SignBytes` does. -/
def sampleSignBytes : VoteSigner :=
  fun vote chainID =>
    if -62135596800 ≤ vote.Timestamp ∧ vote.Timestamp ≤ 253402300799 then
      .ok (Fin.ofNat chainID.length :: vote.ValidatorAddress)
    else .error (.raised "marshal: time out of range")

/-! ## Lemmas on vote aggregation -/

theorem foldl_sigs_eq (votes : List Vote) (acc : Bytes) :
    votes.foldl (fun sigs vote => sigs ++ vote.Signature) acc
      = acc ++ aggregateSpec votes := by
  induction votes generalizing acc with
  | nil => simp [aggregateSpec]
  | cons v vs ih => simp [List.foldl_cons, ih, aggregateSpec, List.append_assoc]

theorem getSigs_eq_aggregateSpec (votes : List Vote) :
    getSigs votes = aggregateSpec votes := by
  simp [getSigs, foldl_sigs_eq]

theorem aggregateSpec_eq_flatten (votes : List Vote) :
    aggregateSpec votes = (votes.map Vote.Signature).flatten := by
  induction votes with
  | nil => rfl
  | cons v vs ih => simp [aggregateSpec, ih]

theorem aggregateSpec_length (votes : List Vote) :
    (aggregateSpec votes).length = (votes.map (fun v => v.Signature.length)).sum := by
  induction votes with
  | nil => rfl
  | cons v vs ih => simp [aggregateSpec, ih]


theorem getSigs_append (xs ys : List Vote) :
    getSigs (xs ++ ys) = getSigs xs ++ getSigs ys := by
  induction xs with
  | nil => simp [getSigs_eq_aggregateSpec, aggregateSpec]
  | cons v vs ih =>
    simp only [getSigs_eq_aggregateSpec] at ih ⊢
    simp [aggregateSpec, ih]

theorem signature_length_sum_perm {xs ys : List Vote} (h : xs.Perm ys) :
    (xs.map (fun v => v.Signature.length)).sum
      = (ys.map (fun v => v.Signature.length)).sum :=
  (h.map _).sum_eq

/-! ## Lemmas on the extra data -/

theorem getExtraData_ret (enc : Serializer) (record : CheckpointBlockHeader)
    (ctx : Context) :
    (getExtraData enc record ctx).ret
      = (enc (NewBaseTx (NewMsgCheckpointBlock record.Proposer record.StartBlock
          record.EndBlock record.RootHash))).1 := by
  unfold getExtraData
  rcases h : enc (NewBaseTx (NewMsgCheckpointBlock record.Proposer record.StartBlock
      record.EndBlock record.RootHash)) with ⟨bytes, err⟩
  cases err <;> simp [h]

/-! ## Vote aggregation: properties -/

/-- C1: for every sequence of votes `getSigs` returns exactly the
concatenation of the votes' signatures in input order; in particular the empty
sequence yields the empty byte sequence, a vote given twice contributes its
signature twice, and the aggregate of two sequences in a row is the two
aggregates in a row. -/
theorem getSigs_concatenates_in_order (votes : List Vote) :
    getSigs votes = (votes.map Vote.Signature).flatten
    ∧ getSigs votes = aggregateSpec votes
    ∧ getSigs [] = []
    ∧ (∀ vote : Vote, getSigs [vote, vote] = vote.Signature ++ vote.Signature)
    ∧ (∀ more : List Vote, getSigs (votes ++ more) = getSigs votes ++ getSigs more) := by
  refine ⟨?_, getSigs_eq_aggregateSpec votes, rfl, ?_, ?_⟩
  · rw [getSigs_eq_aggregateSpec, aggregateSpec_eq_flatten]
  · intro vote
    simp [getSigs]
  · intro more
    exact getSigs_append votes more

/-- C2: for every non-empty sequence of votes and every permutation of it, the
output of `getSigs` on the permutation is as long as the signatures of the
sequence taken together, and it is the concatenation of the signatures in the
permuted order; the order is not normalised, two orders of the same votes can
give different outputs. -/
theorem getSigs_permutation (votes perm : List Vote) (_hne : votes ≠ [])
    (hperm : perm.Perm votes) :
    (getSigs perm).length = (votes.map (fun v => v.Signature.length)).sum
    ∧ getSigs perm = (perm.map Vote.Signature).flatten
    ∧ (∃ xs ys : List Vote, xs.Perm ys ∧ getSigs xs ≠ getSigs ys) := by
  refine ⟨?_, ?_, ⟨[voteA, voteB], [voteB, voteA], List.Perm.swap _ _ _, by decide⟩⟩
  · rw [getSigs_eq_aggregateSpec, aggregateSpec_length]
    exact signature_length_sum_perm hperm
  · rw [getSigs_eq_aggregateSpec, aggregateSpec_eq_flatten]

/-- Witness of C2 at the votes A, B and their swap B, A: five signature bytes,
those of B first. -/
theorem getSigs_permutation_witness :
    ([voteA, voteB] ≠ [] ∧ [voteB, voteA].Perm [voteA, voteB])
    ∧ (getSigs [voteB, voteA]).length = 5
    ∧ getSigs [voteB, voteA] = [20, 21, 22, 10, 11] := by
  have h := getSigs_permutation [voteA, voteB] [voteB, voteA] (by decide)
    (List.Perm.swap _ _ _)
  refine ⟨⟨by decide, List.Perm.swap _ _ _⟩, ?_, ?_⟩
  · rw [h.1]; decide
  · rw [h.2.1]; decide

/-! ## Block end: properties -/

/-- C3, counterexample: in scenario 1 (marker present, record 100 to 200 stored
at the current height, two votes, root chain confirmed up to 100) the block-end
hook makes no call of the submitter, so it is not invoked exactly once. -/
theorem EndBlocker_valid_checkpoint_not_submitted :
    ctxValid.BlockHeader.NumTxs = 1
    ∧ ctxValid.ms.checkpoint.get ctxValid.BlockHeight = some recordA
    ∧ ctxValid.BlockHeader.Votes ≠ []
    ∧ externalAt100.lastConfirmedBlock = recordA.StartBlock
    ∧ (EndBlocker sampleApp ctxValid sampleEndBlock).sent = []
    ∧ (EndBlocker sampleApp ctxValid sampleEndBlock).sent.length ≠ 1 := by
  refine ⟨rfl, rfl, ?_, rfl, rfl, ?_⟩
  · simp [ctxValid, sampleCtx]
  · simp [EndBlocker]

/-- C3, amended: when the block carries the checkpoint marker, a record exists
at the current height, the vote set is non-empty and the root chain's last
confirmed block equals the record's start block, the block-end hook still
encodes nothing and dispatches nothing: no submitter call, no log line, store
contents as before. -/
theorem EndBlocker_valid_checkpoint_no_dispatch (app : HeimdallApp) (ctx : Context)
    (x : RequestEndBlock) (external : ExternalChainState)
    (record : CheckpointBlockHeader)
    (_hmarker : ctx.BlockHeader.NumTxs = 1)
    (_hrecord : ctx.ms.checkpoint.get ctx.BlockHeight = some record)
    (_hvotes : ctx.BlockHeader.Votes ≠ [])
    (_hvalid : external.lastConfirmedBlock = record.StartBlock) :
    (EndBlocker app ctx x).sent = []
    ∧ (EndBlocker app ctx x).logs = []
    ∧ (EndBlocker app ctx x).ms = ctx.ms :=
  ⟨rfl, rfl, rfl⟩

/-- Witness of the amended C3 in scenario 1. -/
theorem EndBlocker_valid_checkpoint_no_dispatch_witness :
    (ctxValid.BlockHeader.NumTxs = 1
      ∧ ctxValid.ms.checkpoint.get ctxValid.BlockHeight = some recordA
      ∧ ctxValid.BlockHeader.Votes ≠ []
      ∧ externalAt100.lastConfirmedBlock = recordA.StartBlock)
    ∧ (EndBlocker sampleApp ctxValid sampleEndBlock).sent = []
    ∧ (EndBlocker sampleApp ctxValid sampleEndBlock).logs = []
    ∧ (EndBlocker sampleApp ctxValid sampleEndBlock).ms = ctxValid.ms :=
  have hvotes : ctxValid.BlockHeader.Votes ≠ [] := by simp [ctxValid, sampleCtx]
  ⟨⟨rfl, rfl, hvotes, rfl⟩,
    EndBlocker_valid_checkpoint_no_dispatch sampleApp ctxValid sampleEndBlock
      externalAt100 recordA rfl rfl hvotes rfl⟩

/-- C4: whenever the checkpoint record at the current height starts at a block
other than the root chain's last confirmed block, or the block's vote set is
empty, the block-end hook dispatches no submission and leaves the checkpoint
store, records and ACK count, exactly as it was. -/
theorem EndBlocker_skip_keeps_store (app : HeimdallApp) (ctx : Context)
    (x : RequestEndBlock) (external : ExternalChainState)
    (_hskip : (∃ record, ctx.ms.checkpoint.get ctx.BlockHeight = some record
                ∧ record.StartBlock ≠ external.lastConfirmedBlock)
              ∨ ctx.BlockHeader.Votes = []) :
    (EndBlocker app ctx x).sent = []
    ∧ (EndBlocker app ctx x).ms.checkpoint = ctx.ms.checkpoint
    ∧ (EndBlocker app ctx x).ms.checkpoint.records = ctx.ms.checkpoint.records
    ∧ (EndBlocker app ctx x).ms.checkpoint.ackCount = ctx.ms.checkpoint.ackCount :=
  ⟨rfl, rfl, rfl, rfl⟩

/-- Witness of C4 in scenario 2: the record starts at 150, the root chain has
confirmed up to 100. -/
theorem EndBlocker_skip_keeps_store_witness :
    (ctxMismatch.ms.checkpoint.get ctxMismatch.BlockHeight = some recordB
      ∧ recordB.StartBlock ≠ externalAt100.lastConfirmedBlock)
    ∧ (EndBlocker sampleApp ctxMismatch sampleEndBlock).sent = []
    ∧ (EndBlocker sampleApp ctxMismatch sampleEndBlock).ms.checkpoint
        = { records := [(7, recordB)], ackCount := some 0 } :=
  have hrec : ctxMismatch.ms.checkpoint.get ctxMismatch.BlockHeight = some recordB := rfl
  have hne : recordB.StartBlock ≠ externalAt100.lastConfirmedBlock := by decide
  have h := EndBlocker_skip_keeps_store sampleApp ctxMismatch sampleEndBlock
    externalAt100 (Or.inl ⟨recordB, hrec, hne⟩)
  ⟨⟨hrec, hne⟩, h.1, h.2.1⟩

/-- C5, counterexample: the staking collaborator has one update pending for
the block and the response of the block-end hook carries none, so the pending
updates are not passed through. -/
theorem EndBlocker_drops_pending_updates :
    sampleApp.stakerKeeper.EndBlocker ctxValid = [{ PubKey := [1], Power := 10 }]
    ∧ (EndBlocker sampleApp ctxValid sampleEndBlock).response.ValidatorUpdates = []
    ∧ (EndBlocker sampleApp ctxValid sampleEndBlock).response.ValidatorUpdates
        ≠ sampleApp.stakerKeeper.EndBlocker ctxValid := by
  refine ⟨rfl, rfl, ?_⟩
  simp [EndBlocker, sampleApp]

/-- C5, amended: for every block-end invocation the response carries no
validator update, whatever the staking collaborator has pending (it is not
consulted), so the response equals the pending updates only when none is
pending; in particular the response carries no validator-set change when no
checkpoint record exists at the current height. -/
theorem EndBlocker_no_validator_updates (app : HeimdallApp) (ctx : Context)
    (x : RequestEndBlock) :
    (EndBlocker app ctx x).response.ValidatorUpdates = []
    ∧ ((EndBlocker app ctx x).response.ValidatorUpdates = app.stakerKeeper.EndBlocker ctx
        ↔ app.stakerKeeper.EndBlocker ctx = [])
    ∧ (ctx.ms.checkpoint.get ctx.BlockHeight = none
        → (EndBlocker app ctx x).response.ValidatorUpdates = []) := by
  refine ⟨rfl, ?_, fun _ => rfl⟩
  simp only [EndBlocker]
  exact eq_comm

/-! ## Extra data: properties -/

/-- C6, counterexample: with a serializer that fails, the specification's
encoder reports the failure, while `getExtraData` returns an ordinary byte
slice, the empty one, and only logs the error. -/
theorem getExtraData_failure_returns_bytes :
    (failingSerializer (NewBaseTx (NewMsgCheckpointBlock recordA.Proposer
        recordA.StartBlock recordA.EndBlock recordA.RootHash))).2
      = some { text := "rlp: type not serializable" }
    ∧ encodeSpec failingSerializer recordA
        = .error { text := "rlp: type not serializable" }
    ∧ (getExtraData failingSerializer recordA ctxValid).ret = [] :=
  ⟨rfl, rfl, rfl⟩

/-- C6, amended: when serialization of the checkpoint transaction fails,
`getExtraData` logs the error and returns to its caller the byte slice the
serializer gave along with the error, as an ordinary result; the failure
reaches the log only. -/
theorem getExtraData_failure_logged (enc : Serializer) (record : CheckpointBlockHeader)
    (ctx : Context) (e : RlpError)
    (hfail : (enc (NewBaseTx (NewMsgCheckpointBlock record.Proposer record.StartBlock
        record.EndBlock record.RootHash))).2 = some e) :
    (getExtraData enc record ctx).ret
      = (enc (NewBaseTx (NewMsgCheckpointBlock record.Proposer record.StartBlock
          record.EndBlock record.RootHash))).1
    ∧ (getExtraData enc record ctx).logs.getLast?
      = some { level := .error, msg := "Error decoding transaction data",
               keyvals := [("error", .err e)] } := by
  refine ⟨getExtraData_ret enc record ctx, ?_⟩
  unfold getExtraData
  rcases h : enc (NewBaseTx (NewMsgCheckpointBlock record.Proposer record.StartBlock
      record.EndBlock record.RootHash)) with ⟨bytes, err⟩
  rw [h] at hfail
  simp only [Option.some.injEq] at hfail
  subst hfail
  simp [h]

/-- Witness of the amended C6 at the failing serializer. -/
theorem getExtraData_failure_logged_witness :
    (failingSerializer (NewBaseTx (NewMsgCheckpointBlock recordA.Proposer
        recordA.StartBlock recordA.EndBlock recordA.RootHash))).2
      = some { text := "rlp: type not serializable" }
    ∧ (getExtraData failingSerializer recordA ctxValid).ret = []
    ∧ (getExtraData failingSerializer recordA ctxValid).logs.getLast?
      = some { level := .error, msg := "Error decoding transaction data",
               keyvals := [("error", .err { text := "rlp: type not serializable" })] } :=
  ⟨rfl, getExtraData_failure_logged failingSerializer recordA ctxValid
    { text := "rlp: type not serializable" } rfl⟩

/-- C7: the bytes returned by `getExtraData` depend on the checkpoint record
alone: two calls whose records agree on proposer, start block, end block and
root hash return identical bytes whatever the two contexts are, and the bytes
are the serialization of the base transaction wrapping the message built from
those four fields. -/
theorem getExtraData_depends_on_record_only (enc : Serializer)
    (r1 r2 : CheckpointBlockHeader) (ctx1 ctx2 : Context)
    (hproposer : r1.Proposer = r2.Proposer) (hstart : r1.StartBlock = r2.StartBlock)
    (hend : r1.EndBlock = r2.EndBlock) (hroot : r1.RootHash = r2.RootHash) :
    (getExtraData enc r1 ctx1).ret = (getExtraData enc r2 ctx2).ret
    ∧ (getExtraData enc r1 ctx1).ret
      = (enc (NewBaseTx (NewMsgCheckpointBlock r1.Proposer r1.StartBlock
          r1.EndBlock r1.RootHash))).1 := by
  refine ⟨?_, getExtraData_ret enc r1 ctx1⟩
  rw [getExtraData_ret, getExtraData_ret, hproposer, hstart, hend, hroot]

/-- Witness of C7: the same record under two contexts that differ in chain ID,
height and store contents. -/
theorem getExtraData_depends_on_record_only_witness :
    (ctxValid.ChainID ≠ ctxOther.ChainID ∧ ctxValid.BlockHeight ≠ ctxOther.BlockHeight
      ∧ ctxValid.ms ≠ ctxOther.ms)
    ∧ (getExtraData sampleSerializer recordA ctxValid).ret
        = (getExtraData sampleSerializer recordA ctxOther).ret
    ∧ (getExtraData sampleSerializer recordA ctxValid).ret = [0xA, 100, 200, 0x48] := by
  have h := getExtraData_depends_on_record_only sampleSerializer recordA recordA
    ctxValid ctxOther rfl rfl rfl rfl
  refine ⟨⟨by decide, by decide, by decide⟩, h.1, ?_⟩
  rw [h.2]
  decide

/-! ## Chain initialisation and block begin: properties -/

/-- C8: `initChainer` hands the given context to the checkpoint keeper's
`InitACKCount`, does nothing else and returns the empty response, whatever the
keeper is. Whenever `InitACKCount` sets the ACK count to 0 at a call, the ACK
count is 0 after `initChainer`, on the first run and on a second run over the
store the first left. With the keeper of the specification a run from a store
whose count is unset (or 0) ends with the count at 0, a second run leaves it
at 0, and both runs leave every checkpoint record unchanged. -/
theorem initChainer_sets_ack_count (app : HeimdallApp) (ctx : Context)
    (req req2 : RequestInitChain) :
    ((initChainer app ctx req).ms = app.checkpointKeeper.InitACKCount ctx
      ∧ (initChainer app ctx req).response = {}
      ∧ (initChainer app ctx req).sent = []
      ∧ (initChainer app ctx req).logs = [])
    ∧ ((app.checkpointKeeper.InitACKCount ctx).checkpoint.ackCount = some 0
        → (initChainer app ctx req).ms.checkpoint.ackCount = some 0)
    ∧ ((app.checkpointKeeper.InitACKCount
          (ctx.withStore (initChainer app ctx req).ms)).checkpoint.ackCount = some 0
        → (initChainer app (ctx.withStore (initChainer app ctx req).ms)
            req2).ms.checkpoint.ackCount = some 0)
    ∧ ((ctx.ms.checkpoint.ackCount = none ∨ ctx.ms.checkpoint.ackCount = some 0)
        → (initChainer { app with checkpointKeeper := specKeeper } ctx
            req).ms.checkpoint.ackCount = some 0
          ∧ (initChainer { app with checkpointKeeper := specKeeper }
              (ctx.withStore (initChainer { app with checkpointKeeper := specKeeper }
                ctx req).ms) req2).ms.checkpoint.ackCount = some 0)
    ∧ (initChainer { app with checkpointKeeper := specKeeper } ctx
        req).ms.checkpoint.records = ctx.ms.checkpoint.records
    ∧ (initChainer { app with checkpointKeeper := specKeeper }
        (ctx.withStore (initChainer { app with checkpointKeeper := specKeeper }
          ctx req).ms) req2).ms
        = (initChainer { app with checkpointKeeper := specKeeper } ctx req).ms
    ∧ (initChainer { app with checkpointKeeper := specKeeper }
        (ctx.withStore (initChainer { app with checkpointKeeper := specKeeper }
          ctx req).ms) req2).ms.checkpoint.records
        = (initChainer { app with checkpointKeeper := specKeeper } ctx
            req).ms.checkpoint.records := by
  refine ⟨⟨rfl, rfl, rfl, rfl⟩, fun h => h, fun h => h, ?_, ?_, ?_, ?_⟩
  · intro h
    rcases h with h | h <;>
      simp [initChainer, specKeeper, MultiStore.setACKCount, Context.withStore, h]
  · cases h : ctx.ms.checkpoint.ackCount <;>
      simp [initChainer, specKeeper, MultiStore.setACKCount, h]
  · cases h : ctx.ms.checkpoint.ackCount <;>
      simp [initChainer, specKeeper, MultiStore.setACKCount, Context.withStore, h]
  · cases h : ctx.ms.checkpoint.ackCount <;>
      simp [initChainer, specKeeper, MultiStore.setACKCount, Context.withStore, h]

/-- Witness of C8 at genesis with the keeper of the specification: the count
goes from unset to 0, a second run leaves it at 0 and the stored record stays. -/
theorem initChainer_sets_ack_count_witness :
    ctxGenesis.ms.checkpoint.ackCount = none
    ∧ (initChainer sampleApp ctxGenesis sampleInitChain).ms
        = sampleApp.checkpointKeeper.InitACKCount ctxGenesis
    ∧ (initChainer sampleApp ctxGenesis sampleInitChain).ms.checkpoint.ackCount = some 0
    ∧ (initChainer sampleApp
        (ctxGenesis.withStore (initChainer sampleApp ctxGenesis sampleInitChain).ms)
        sampleInitChain).ms.checkpoint.ackCount = some 0
    ∧ (initChainer sampleApp
        (ctxGenesis.withStore (initChainer sampleApp ctxGenesis sampleInitChain).ms)
        sampleInitChain).ms.checkpoint.records = [(7, recordA)] := by
  have h := initChainer_sets_ack_count sampleApp ctxGenesis sampleInitChain
    sampleInitChain
  refine ⟨rfl, h.1.1, h.2.1 rfl, h.2.2.1 rfl, ?_⟩
  have h2 := h.2.2.2.2.2.2
  have h1 := h.2.2.2.2.1
  exact (h2.trans h1)

/-- C9: for every context and every begin-block request `BeginBlocker` returns
the empty response and changes no state: checkpoint store, staker store and ACK
count are after the call what they were before it, and nothing is submitted or
logged. -/
theorem BeginBlocker_is_noop (app : HeimdallApp) (ctx : Context)
    (req : RequestBeginBlock) :
    (BeginBlocker app ctx req).response = {}
    ∧ (BeginBlocker app ctx req).ms = ctx.ms
    ∧ (BeginBlocker app ctx req).ms.checkpoint = ctx.ms.checkpoint
    ∧ (BeginBlocker app ctx req).ms.staker = ctx.ms.staker
    ∧ (BeginBlocker app ctx req).ms.checkpoint.ackCount = ctx.ms.checkpoint.ackCount
    ∧ (BeginBlocker app ctx req).sent = []
    ∧ (BeginBlocker app ctx req).logs = [] :=
  ⟨rfl, rfl, rfl, rfl, rfl, rfl, rfl⟩

/-! ## Vote sign bytes: properties -/

/-- C10, counterexample: a non-empty vote sequence on which `GetVoteBytes`
returns no value: the only vote is stamped out of range, its `SignBytes`
panics on marshalling, and the panic is the outcome of `GetVoteBytes`. -/
theorem GetVoteBytes_nonempty_can_panic :
    [voteOutOfRange] ≠ []
    ∧ GetVoteBytes sampleSignBytes [voteOutOfRange] ctxValid
        = .error (.raised "marshal: time out of range")
    ∧ ¬ ∃ bytes, GetVoteBytes sampleSignBytes [voteOutOfRange] ctxValid = .ok bytes := by
  have h : GetVoteBytes sampleSignBytes [voteOutOfRange] ctxValid
      = .error (.raised "marshal: time out of range") := by
    simp [GetVoteBytes, sampleSignBytes, voteOutOfRange]
  refine ⟨by simp, h, ?_⟩
  rintro ⟨bytes, hb⟩
  rw [h] at hb
  cases hb

/-- C10, amended: on a non-empty vote sequence the outcome of `GetVoteBytes`
is the outcome of the first vote's `SignBytes` under the chain ID of the
context, its bytes when it returns and its panic when it panics, whatever the
later votes are; on the empty sequence it panics with an index out of range;
so it returns a value exactly when the sequence is non-empty and the first
vote's `SignBytes` returns one. -/
theorem GetVoteBytes_first_vote_outcome (SignBytes : VoteSigner) (ctx : Context) :
    (∀ (vote : Vote) (rest : List Vote),
        GetVoteBytes SignBytes (vote :: rest) ctx = SignBytes vote ctx.ChainID)
    ∧ (∀ (vote : Vote) (rest rest2 : List Vote),
        GetVoteBytes SignBytes (vote :: rest) ctx
          = GetVoteBytes SignBytes (vote :: rest2) ctx)
    ∧ GetVoteBytes SignBytes [] ctx = .error (.indexOutOfRange 0 0)
    ∧ (∀ (votes : List Vote) (bytes : Bytes),
        GetVoteBytes SignBytes votes ctx = .ok bytes
          ↔ ∃ vote rest, votes = vote :: rest ∧ SignBytes vote ctx.ChainID = .ok bytes) := by
  refine ⟨fun _ _ => by simp [GetVoteBytes], fun _ _ _ => by simp [GetVoteBytes],
    by simp [GetVoteBytes], ?_⟩
  intro votes bytes
  cases votes with
  | nil => simp [GetVoteBytes]
  | cons v vs => simp [GetVoteBytes]

/-- Witness of the amended C10: the votes A, B give the sign bytes of A, also
when the out-of-range vote follows A; the empty sequence panics on the index. -/
theorem GetVoteBytes_first_vote_outcome_witness :
    GetVoteBytes sampleSignBytes [voteA, voteB] ctxValid = .ok [8, 1]
    ∧ GetVoteBytes sampleSignBytes [voteA, voteOutOfRange] ctxValid = .ok [8, 1]
    ∧ GetVoteBytes sampleSignBytes [] ctxValid = .error (.indexOutOfRange 0 0) := by
  have h := GetVoteBytes_first_vote_outcome sampleSignBytes ctxValid
  have hA : sampleSignBytes voteA ctxValid.ChainID = .ok [8, 1] := by
    simp [sampleSignBytes, voteA, ctxValid, sampleCtx]
    rfl
  refine ⟨?_, ?_, h.2.2.1⟩
  · rw [h.1]; exact hA
  · rw [h.1]; exact hA

end Heimdall
